import Mathlib

/- Verification development for the braidMgr tenant-routing, RBAC and audit
   core. The definitions below are shallow Lean embeddings of the functions
   written in the repository's architecture and flow documents: the two
   permission-check implementations (docs/architecture/auth-rbac.md and
   docs/flows/item-lifecycle.md), the tenant-directory lookup and the
   connection-pool registry (Database Architecture, Service Architecture and
   Multi-Tenancy Flows documents), and the transactional audit recorder
   (item-lifecycle.md together with AuroraService.transaction). The theorems
   settle the specification's claims about those functions. -/

deriving instance DecidableEq for Except

namespace BraidMgr

/-- Error kinds from the exception hierarchy of the error-handling pattern
document (src/utils/exceptions.py): each constructor is one of the AppError
subclasses. -/
inductive AppError where
  | validationError
  | authenticationError
  | authorizationError
  | notFound
  | conflictError
  | workflowError
  | databaseError
  | externalServiceError
  | serviceUnavailable
deriving DecidableEq

/-- One row of the per-org audit_log table, with the columns inserted by
log_change in item-lifecycle.md. -/
structure AuditEntry where
  user_id : Nat
  action : String
  entity_type : String
  entity_id : Nat
  before_state : Option String
  after_state : Option String
  correlation_id : Nat
deriving DecidableEq

/-- Abstract view of one tenant's database for the request-level theorems:
the business tables are collapsed to an opaque list of rows, next to the
audit_log table that log_change inserts into. -/
structure Database where
  items : List Nat
  audit_log : List AuditEntry
deriving DecidableEq

/-- An empty tenant database, used to instantiate theorems on concrete
inputs. -/
def emptyDb : Database := { items := [], audit_log := [] }

/-- A concrete audit row, used to instantiate theorems on concrete inputs. -/
def sampleEntry : AuditEntry :=
  { user_id := 1, action := "item_deleted", entity_type := "item",
    entity_id := 42, before_state := some "open", after_state := none,
    correlation_id := 9 }

namespace AuthRbac

/-- The Permission enum of docs/architecture/auth-rbac.md. -/
inductive Permission where
  | VIEW_ITEMS
  | CREATE_ITEMS
  | UPDATE_ITEMS
  | DELETE_ITEMS
  | MANAGE_WORKSTREAMS
  | MANAGE_SETTINGS
  | DELETE_PROJECT
  | ASSIGN_ROLES
  | EDIT_BUDGET
deriving DecidableEq, Fintype

/-- Full permission set, the elaboration of set(Permission) used for the
"admin" row of ROLE_PERMISSIONS. -/
def allPermissions : List Permission :=
  [.VIEW_ITEMS, .CREATE_ITEMS, .UPDATE_ITEMS, .DELETE_ITEMS,
   .MANAGE_WORKSTREAMS, .MANAGE_SETTINGS, .DELETE_PROJECT,
   .ASSIGN_ROLES, .EDIT_BUDGET]

/-- The ROLE_PERMISSIONS table of auth-rbac.md; an unknown role maps to the
empty set, matching the Python dict lookup with default set(). -/
def ROLE_PERMISSIONS (role : String) : List Permission :=
  if role = "viewer" then [.VIEW_ITEMS]
  else if role = "team_member" then
    [.VIEW_ITEMS, .CREATE_ITEMS, .UPDATE_ITEMS]
  else if role = "project_manager" then
    [.VIEW_ITEMS, .CREATE_ITEMS, .UPDATE_ITEMS, .DELETE_ITEMS,
     .MANAGE_WORKSTREAMS, .MANAGE_SETTINGS, .EDIT_BUDGET]
  else if role = "admin" then allPermissions
  else []

/-- check_permission from auth-rbac.md, parameterized by the result of the
awaited get_user_project_role(user_id, project_id) lookup. The function
consults only the project-level role: None means no project-level role
record, and the code then returns False; otherwise it tests membership in
ROLE_PERMISSIONS. The org-level role is not consulted anywhere in this
implementation. -/
def check_permission (projectRole : Option String) (permission : Permission) :
    Bool :=
  match projectRole with
  | none => false
  | some role => decide (permission ∈ ROLE_PERMISSIONS role)

/-- require_permission from auth-rbac.md: the decorator checks
check_permission and raises AuthorizationError("Insufficient permissions")
before the wrapped handler runs when the check fails. The wrapped handler
func is modeled as a state transformer on the tenant database returning a
response value; the model returns the final database next to the outcome so
that non-invocation of func is observable. -/
def require_permission (projectRole : Option String) (permission : Permission)
    (func : Database → Database × Nat) (db : Database) :
    Except AppError Nat × Database :=
  if check_permission projectRole permission then
    let r := func db
    (Except.ok r.2, r.1)
  else
    (Except.error AppError.authorizationError, db)

end AuthRbac

namespace ItemFlow

/-- The Permission enum of docs/flows/item-lifecycle.md (the second
permission-check implementation in the repository). -/
inductive Perm where
  | VIEW
  | CREATE
  | EDIT
  | DELETE
  | MANAGE_TEAM
  | EDIT_BUDGET
deriving DecidableEq, Fintype

/-- The PROJECT_ROLE_PERMISSIONS table of item-lifecycle.md; an unknown role
maps to the empty set, matching the Python dict lookup with default set(). -/
def PROJECT_ROLE_PERMISSIONS (role : String) : List Perm :=
  if role = "admin" then
    [.VIEW, .CREATE, .EDIT, .DELETE, .MANAGE_TEAM, .EDIT_BUDGET]
  else if role = "project_manager" then
    [.VIEW, .CREATE, .EDIT, .DELETE, .EDIT_BUDGET]
  else if role = "team_member" then [.VIEW, .CREATE, .EDIT]
  else if role = "viewer" then [.VIEW]
  else []

/-- check_project_permission from item-lifecycle.md, parameterized by the
results of the awaited get_user_org_role and get_user_project_role lookups.
An org-level role of "owner" or "admin" returns True immediately; otherwise
a missing project role denies and a present one is looked up in
PROJECT_ROLE_PERMISSIONS. -/
def check_project_permission (orgRole : Option String)
    (projectRole : Option String) (p : Perm) : Bool :=
  if orgRole = some "owner" ∨ orgRole = some "admin" then true
  else
    match projectRole with
    | none => false
    | some role => decide (p ∈ PROJECT_ROLE_PERMISSIONS role)

end ItemFlow

namespace Directory

/-- One row of the central braidmgr_central.organizations table (Core
Entities document): deleted models deleted_at IS NOT NULL, the soft-delete
flag; database_name is UNIQUE in the schema. -/
structure OrgRecord where
  id : Nat
  database_name : String
  deleted : Bool
deriving DecidableEq

/-- The central-store query SELECT database_name FROM organizations for a
given org id: the first record with that id. The query as written
in get_org_connection carries no deleted_at filter. -/
def findOrg : List OrgRecord → Nat → Option OrgRecord
  | [], _ => none
  | r :: rest, i => if r.id = i then some r else findOrg rest i

end Directory

namespace DbArch

open Directory

/-- The AuroraService pool registry of the Database Architecture document:
the dict from database_name to live pool, plus a fresh counter identifying
pool objects — asyncpg.create_pool returns a new object on every call, so
two distinct identifiers are two distinct pools. -/
structure Registry where
  pools : List (String × Nat)
  nextPool : Nat
deriving DecidableEq

/-- The registry of a freshly constructed AuroraService: no pools. -/
def emptyRegistry : Registry := { pools := [], nextPool := 0 }

/-- Dict lookup in the pools map (first binding wins, matching the model's
insert-at-front discipline where a key is only inserted when absent). -/
def lookupPool : List (String × Nat) → String → Option Nat
  | [], _ => none
  | (k, v) :: rest, n => if k = n then some v else lookupPool rest n

/-- AuroraService.get_org_pool from the Database Architecture document,
sequential semantics: a cache hit returns the cached pool; otherwise
asyncpg.create_pool runs — its outcome modeled by createOk — and on success
the new pool is inserted into the registry before the lock releases. On
failure the raised connection error maps to ServiceUnavailableError per the
error-handling pattern document, and nothing is inserted. -/
def get_org_pool (s : Registry) (database_name : String) (createOk : Bool) :
    Except AppError Nat × Registry :=
  match lookupPool s.pools database_name with
  | some p => (Except.ok p, s)
  | none =>
    if createOk then
      (Except.ok s.nextPool,
        { pools := (database_name, s.nextPool) :: s.pools,
          nextPool := s.nextPool + 1 })
    else (Except.error AppError.serviceUnavailable, s)

/-- The tenant-locator resolution step of get_org_connection (Database
Architecture document): the SELECT against the central organizations table,
with central-store unavailability mapped to ServiceUnavailableError by the
error-handling pattern document (asyncpg.PostgresConnectionError branch).
The query has no deleted_at filter, so the deleted flag of a found record
is not consulted. -/
def resolve_database_name (available : Bool) (central : List OrgRecord)
    (org_id : Nat) : Except AppError String :=
  if available then
    match findOrg central org_id with
    | none => Except.error AppError.notFound
    | some org => Except.ok org.database_name
  else Except.error AppError.serviceUnavailable

/-- get_org_connection from the Database Architecture document: resolve the
org's database_name from the central directory, then get or create the
pool for that database_name. -/
def get_org_connection (available : Bool) (central : List OrgRecord)
    (s : Registry) (org_id : Nat) (createOk : Bool) :
    Except AppError Nat × Registry :=
  match resolve_database_name available central org_id with
  | Except.error e => (Except.error e, s)
  | Except.ok dbn => get_org_pool s dbn createOk

/-- A trace of get_org_pool calls: each operation carries the requested
database_name and the outcome its asyncpg.create_pool call would have.
These are the only operations in the code that touch the registry. -/
def runPool (s : Registry) : List (String × Bool) → Registry
  | [] => s
  | op :: rest => runPool (get_org_pool s op.1 op.2).2 rest

/-- Registry invariant: every cached pool identifier is below the fresh
counter, and no two locators share a pool identifier. -/
structure RegInv (s : Registry) : Prop where
  bounded : ∀ n p, lookupPool s.pools n = some p → p < s.nextPool
  inj : ∀ n1 n2 p, lookupPool s.pools n1 = some p →
    lookupPool s.pools n2 = some p → n1 = n2

end DbArch

namespace MtFlow

open Directory

/-- The module-level connection_pools cache of the Multi-Tenancy Flows
document, keyed by org_id, with the same fresh-counter identification of
pool objects as the other registry model. -/
structure FlowCache where
  connection_pools : List (Nat × Nat)
  nextPool : Nat
deriving DecidableEq

/-- The cache at module load: empty. -/
def emptyCache : FlowCache := { connection_pools := [], nextPool := 0 }

/-- Dict lookup in the org-keyed cache. -/
def lookupOrg : List (Nat × Nat) → Nat → Option Nat
  | [], _ => none
  | (k, v) :: rest, n => if k = n then some v else lookupOrg rest n

/-- get_org_connection from the Multi-Tenancy Flows document, sequential
semantics: the cache is checked first and a hit returns the cached pool at
once — the central directory is not consulted at all on that path. On a
miss the org record is fetched from the central store (availability modeled
as in resolve_database_name) and a pool is created for org.database_name
and cached under the org id. -/
def get_org_connection (available : Bool) (central : List OrgRecord)
    (s : FlowCache) (org_id : Nat) : Except AppError Nat × FlowCache :=
  match lookupOrg s.connection_pools org_id with
  | some p => (Except.ok p, s)
  | none =>
    if available then
      match findOrg central org_id with
      | none => (Except.error AppError.notFound, s)
      | some _ =>
        (Except.ok s.nextPool,
          { connection_pools := (org_id, s.nextPool) :: s.connection_pools,
            nextPool := s.nextPool + 1 })
    else (Except.error AppError.serviceUnavailable, s)

/-- A trace of get_org_connection calls, each with the availability and the
directory contents at that moment and the requested org id; the directory
contents may change between calls (soft delete, locator rotation). -/
def runFlow (s : FlowCache) : List (Bool × List OrgRecord × Nat) → FlowCache
  | [] => s
  | op :: rest => runFlow (get_org_connection op.1 op.2.1 s op.2.2).2 rest

end MtFlow

namespace MtFlowConc

open Directory

/-- Control point of one in-flight unlocked get_org_connection call
(Multi-Tenancy Flows document): the suspension points are its two awaits —
the central-directory fetch and asyncpg.create_pool. Each synchronous
stretch between awaits executes atomically, as the asyncio event loop
guarantees. -/
inductive FPC where
  | start
  | resolving
  | creating (database_name : String)
  | finished (p : Nat)
  | failed
deriving DecidableEq

/-- One asyncio task running get_org_connection for an org. -/
structure FTask where
  org : Nat
  pc : FPC
deriving DecidableEq

/-- Shared state: the module-level connection_pools dict keyed by org_id,
the fresh-pool counter, and the in-flight tasks. -/
structure CState where
  connection_pools : List (Nat × Nat)
  nextPool : Nat
  tasks : List FTask
deriving DecidableEq

/-- Replace the control point of task i. -/
def setTask (s : CState) (i : Nat) (t : FTask) : CState :=
  { s with tasks := s.tasks.set i t }

/-- One scheduler step of task i of the unlocked get_org_connection: from
start, the synchronous cache check either finishes with the cached pool or
suspends into the directory fetch; the fetch resolves the record (or
fails); completion of asyncpg.create_pool assigns into the dict and the
call returns the newly built pool. There is no lock and no re-check of the
cache after either await, exactly as in the source. -/
def stepTask (central : List OrgRecord) (s : CState) (i : Nat) (t : FTask) :
    CState :=
  match t.pc with
  | FPC.start =>
    match MtFlow.lookupOrg s.connection_pools t.org with
    | some p => setTask s i { org := t.org, pc := FPC.finished p }
    | none => setTask s i { org := t.org, pc := FPC.resolving }
  | FPC.resolving =>
    match findOrg central t.org with
    | none => setTask s i { org := t.org, pc := FPC.failed }
    | some r =>
      setTask s i { org := t.org, pc := FPC.creating r.database_name }
  | FPC.creating _ =>
    { connection_pools := (t.org, s.nextPool) :: s.connection_pools,
      nextPool := s.nextPool + 1,
      tasks := s.tasks.set i { org := t.org, pc := FPC.finished s.nextPool } }
  | FPC.finished _ => s
  | FPC.failed => s

/-- Scheduler step: advance task i, if it exists. -/
def step (central : List OrgRecord) (s : CState) (i : Nat) : CState :=
  match s.tasks[i]? with
  | some t => stepTask central s i t
  | none => s

/-- Run a schedule: the scheduler picks which task advances at each point. -/
def run (central : List OrgRecord) (s : CState) : List Nat → CState
  | [] => s
  | i :: rest => run central (step central s i) rest

/-- How many pools the dict holds for one org key — i.e. how many times a
pool was constructed for that org's locator (assignment to an existing key
shadows the older pool, which then leaks). -/
def countOrg (l : List (Nat × Nat)) (n : Nat) : Nat :=
  (l.filter (fun e => e.1 == n)).length

/-- Concrete race scenario: one active org (id 1, database
braidmgr_org_acme, not soft-deleted) and two tasks both acquiring for org
1, starting from an empty cache. -/
def raceCentral : List OrgRecord := [⟨1, "braidmgr_org_acme", false⟩]

/-- Both tasks at the cache check, nothing cached yet. -/
def raceStart : CState := ⟨[], 0, [⟨1, FPC.start⟩, ⟨1, FPC.start⟩]⟩

/-- The interleaving: both tasks pass the cache check before either
completes, then both resolve the directory record, then both construct. -/
def raceSchedule : List Nat := [0, 1, 0, 1, 0, 1]

end MtFlowConc

namespace DbArchLocked

/-- Control point of one in-flight locked AuroraService.get_org_pool call
(Database Architecture document): the awaits are the lock acquisition and
asyncpg.create_pool. The unlocked fast-path check, the lock grant together
with the synchronous double-check that follows it, and the
insert-and-release that follows construction are each uninterrupted
synchronous stretches under the asyncio event loop, hence atomic steps. -/
inductive LPC where
  | start
  | waitLock
  | creating
  | finished (p : Nat)

/-- One asyncio task running the locked get_org_pool for a locator. -/
structure LTask where
  database_name : String
  pc : LPC

/-- Shared state: the pools dict, the holder of self._pool_lock if any, the
fresh-pool counter, and the tasks indexed by task id. -/
structure LState where
  pools : List (String × Nat)
  lockHeld : Option Nat
  nextPool : Nat
  tasks : Nat → Option LTask

/-- Replace the control point of task i. -/
def setTask (s : LState) (i : Nat) (t : LTask) : LState :=
  { s with tasks := fun j => if j = i then some t else s.tasks j }

/-- One scheduler step of task i: the fast-path check finishes on a hit or
moves to the lock queue; the lock is granted only when free, and the
double-check under the lock finishes on a hit (the lock is released on
return) or begins construction still holding the lock; completed
construction inserts the pool into the dict, releases the lock and returns
the new pool. -/
def stepTask (s : LState) (i : Nat) (t : LTask) : LState :=
  match t.pc with
  | LPC.start =>
    match DbArch.lookupPool s.pools t.database_name with
    | some p =>
      setTask s i { database_name := t.database_name, pc := LPC.finished p }
    | none =>
      setTask s i { database_name := t.database_name, pc := LPC.waitLock }
  | LPC.waitLock =>
    match s.lockHeld with
    | some _ => s
    | none =>
      match DbArch.lookupPool s.pools t.database_name with
      | some p =>
        setTask s i
          { database_name := t.database_name, pc := LPC.finished p }
      | none =>
        { pools := s.pools, lockHeld := some i, nextPool := s.nextPool,
          tasks := (setTask s i
            { database_name := t.database_name, pc := LPC.creating }).tasks }
  | LPC.creating =>
    { pools := (t.database_name, s.nextPool) :: s.pools,
      lockHeld := none,
      nextPool := s.nextPool + 1,
      tasks := (setTask s i
        { database_name := t.database_name,
          pc := LPC.finished s.nextPool }).tasks }
  | LPC.finished _ => s

/-- Scheduler step: advance task i, if it exists. -/
def step (s : LState) (i : Nat) : LState :=
  match s.tasks i with
  | some t => stepTask s i t
  | none => s

/-- Run a schedule. -/
def run (s : LState) : List Nat → LState
  | [] => s
  | i :: rest => run (step s i) rest

/-- Invariant of the locked registry: locator keys are pairwise distinct
(at most one PoolEntry per locator), a constructing task holds the lock and
its locator is still absent from the dict, and a finished task's returned
pool is exactly the one the dict registers for its locator. -/
structure Inv (s : LState) : Prop where
  keysNodup : (s.pools.map Prod.fst).Nodup
  creatingLock : ∀ i t, s.tasks i = some t → t.pc = LPC.creating →
    s.lockHeld = some i ∧ DbArch.lookupPool s.pools t.database_name = none
  finishedReg : ∀ i t p, s.tasks i = some t → t.pc = LPC.finished p →
    DbArch.lookupPool s.pools t.database_name = some p

end DbArchLocked

namespace SvcArch

/-- A checked-out connection with an open transaction: db is the staged
state visible inside conn.transaction(); nothing reaches the committed
database until the context manager exits normally. -/
structure Conn where
  db : Database
deriving DecidableEq

/-- log_change from item-lifecycle.md: a single INSERT INTO audit_log
executed on the connection it is handed. It appends one row to the staged
state of whatever transaction that connection is in; it opens no
transaction of its own and commits nothing. -/
def log_change (conn : Conn) (e : AuditEntry) : Conn :=
  { conn with db := { conn.db with audit_log := conn.db.audit_log ++ [e] } }

/-- The body run under AuroraService.transaction's with-block: a business
operation executes on the connection, staging writes, and either returns
normally or raises an AppError; either way the staged connection state it
reached is recorded. -/
def TxnBody : Type := Conn → Conn × Option AppError

/-- AuroraService.transaction from the Service Architecture document:
acquire a connection and run the body inside conn.transaction(); a normal
exit commits the staged state, while an exception rolls the whole
transaction back — the committed database stays exactly as it was — and
propagates. -/
def transaction (db : Database) (body : TxnBody) :
    Except AppError Unit × Database :=
  match body ⟨db⟩ with
  | (c, none) => (Except.ok (), c.db)
  | (_, some e) => (Except.error e, db)

/-- A mutation that stages business writes f on the connection, records its
audit entry via log_change on the same connection, then raises err — the
spec's mid-operation failure scenario. -/
def failing_mutation (f : Conn → Conn) (e : AuditEntry) (err : AppError) :
    TxnBody :=
  fun c => (log_change (f c) e, some err)

/-- The same mutation completing normally: the business writes and the
audit entry commit together. -/
def committing_mutation (f : Conn → Conn) (e : AuditEntry) : TxnBody :=
  fun c => (log_change (f c) e, none)

end SvcArch

namespace DbArch

open Directory

theorem RegInv_empty : RegInv emptyRegistry :=
  ⟨fun n p h => by simp [lookupPool, emptyRegistry] at h,
   fun n1 n2 p h1 _ => by simp [lookupPool, emptyRegistry] at h1⟩

theorem get_org_pool_hit (s : Registry) (n : String) (b : Bool) (p : Nat)
    (h : lookupPool s.pools n = some p) :
    get_org_pool s n b = (Except.ok p, s) := by
  simp [get_org_pool, h]

theorem get_org_pool_ok_lookup (s : Registry) (n : String) (b : Bool)
    (p : Nat) (h : (get_org_pool s n b).1 = Except.ok p) :
    lookupPool ((get_org_pool s n b).2).pools n = some p := by
  cases hn : lookupPool s.pools n with
  | some q =>
    have hqp : q = p := by simpa [get_org_pool, hn] using h
    simp [get_org_pool, hn, hqp]
  | none =>
    cases b with
    | false => simp [get_org_pool, hn] at h
    | true =>
      have hqp : s.nextPool = p := by simpa [get_org_pool, hn] using h
      simp [get_org_pool, hn, lookupPool, hqp]

theorem lookupPool_get_org_pool (s : Registry) (n m : String) (b : Bool)
    (p : Nat) (h : lookupPool s.pools m = some p) :
    lookupPool ((get_org_pool s n b).2).pools m = some p := by
  cases hn : lookupPool s.pools n with
  | some q => simpa [get_org_pool, hn] using h
  | none =>
    cases b with
    | false => simpa [get_org_pool, hn] using h
    | true =>
      have hnm : n ≠ m := by
        intro hEq
        rw [hEq, h] at hn
        exact Option.noConfusion hn
      simpa [get_org_pool, hn, lookupPool, hnm] using h

theorem RegInv_get_org_pool (s : Registry) (n : String) (b : Bool)
    (hInv : RegInv s) : RegInv (get_org_pool s n b).2 := by
  cases hn : lookupPool s.pools n with
  | some q => simpa [get_org_pool, hn] using hInv
  | none =>
    cases b with
    | false => simpa [get_org_pool, hn] using hInv
    | true =>
      simp only [get_org_pool, hn, if_true]
      refine ⟨?_, ?_⟩
      · intro m p hm
        by_cases hnm : n = m
        · subst hnm
          simp [lookupPool] at hm
          show p < s.nextPool + 1
          omega
        · simp [lookupPool, hnm] at hm
          exact Nat.lt_succ_of_lt (hInv.bounded m p hm)
      · intro m1 m2 p h1 h2
        by_cases h1n : n = m1 <;> by_cases h2n : n = m2
        · rw [← h1n, ← h2n]
        · subst h1n
          simp [lookupPool] at h1
          simp [lookupPool, h2n] at h2
          have := hInv.bounded m2 p h2
          omega
        · subst h2n
          simp [lookupPool] at h2
          simp [lookupPool, h1n] at h1
          have := hInv.bounded m1 p h1
          omega
        · simp [lookupPool, h1n] at h1
          simp [lookupPool, h2n] at h2
          exact hInv.inj m1 m2 p h1 h2

theorem lookupPool_runPool (s : Registry) (ops : List (String × Bool))
    (m : String) (p : Nat) (h : lookupPool s.pools m = some p) :
    lookupPool (runPool s ops).pools m = some p := by
  induction ops generalizing s with
  | nil => exact h
  | cons op rest ih =>
    exact ih _ (lookupPool_get_org_pool s op.1 m op.2 p h)

theorem get_org_connection_resolved (central : List OrgRecord)
    (s : Registry) (o : Nat) (c : Bool) (r : OrgRecord)
    (hr : findOrg central o = some r) :
    get_org_connection true central s o c =
      get_org_pool s r.database_name c := by
  simp [get_org_connection, resolve_database_name, hr]

theorem lookupPool_none_not_mem (l : List (String × Nat)) (n : String)
    (h : lookupPool l n = none) : n ∉ l.map Prod.fst := by
  induction l with
  | nil => simp
  | cons e rest ih =>
    obtain ⟨k, v⟩ := e
    by_cases hk : k = n
    · simp [lookupPool, hk] at h
    · simp [lookupPool, hk] at h
      simp only [List.map_cons, List.mem_cons]
      rintro (hnk | hmem)
      · exact hk hnk.symm
      · exact ih h hmem

end DbArch

namespace MtFlow

open Directory

theorem get_org_connection_hit (a : Bool) (central : List OrgRecord)
    (s : FlowCache) (o p : Nat)
    (h : lookupOrg s.connection_pools o = some p) :
    get_org_connection a central s o = (Except.ok p, s) := by
  simp [get_org_connection, h]

theorem lookupOrg_get_org_connection (a : Bool) (central : List OrgRecord)
    (s : FlowCache) (m o p : Nat)
    (h : lookupOrg s.connection_pools o = some p) :
    lookupOrg ((get_org_connection a central s m).2).connection_pools o =
      some p := by
  cases hm : lookupOrg s.connection_pools m with
  | some q => simpa [get_org_connection, hm] using h
  | none =>
    cases a with
    | false => simpa [get_org_connection, hm] using h
    | true =>
      cases hf : findOrg central m with
      | none => simpa [get_org_connection, hm, hf] using h
      | some r =>
        have hmo : m ≠ o := by
          intro hEq
          rw [hEq, h] at hm
          exact Option.noConfusion hm
        simpa [get_org_connection, hm, hf, lookupOrg, hmo] using h

theorem lookupOrg_runFlow (s : FlowCache)
    (ops : List (Bool × List OrgRecord × Nat)) (o p : Nat)
    (h : lookupOrg s.connection_pools o = some p) :
    lookupOrg (runFlow s ops).connection_pools o = some p := by
  induction ops generalizing s with
  | nil => exact h
  | cons op rest ih =>
    exact ih _ (lookupOrg_get_org_connection op.1 op.2.1 s op.2.2 o p h)

end MtFlow

namespace DbArchLocked

theorem Inv_finish_hit (s : LState) (i : Nat) (nm : String) (p : Nat)
    (hInv : Inv s) (hl : DbArch.lookupPool s.pools nm = some p) :
    Inv (setTask s i { database_name := nm, pc := LPC.finished p }) := by
  refine ⟨hInv.keysNodup, ?_, ?_⟩
  · intro j u hj hu
    by_cases hji : j = i
    · subst hji
      have hu' : { database_name := nm, pc := LPC.finished p } = u := by
        simpa [setTask] using hj
      rw [← hu'] at hu
      simp at hu
    · have hj' : s.tasks j = some u := by simpa [setTask, hji] using hj
      simpa [setTask] using hInv.creatingLock j u hj' hu
  · intro j u q hj hu
    by_cases hji : j = i
    · subst hji
      have hu' : { database_name := nm, pc := LPC.finished p } = u := by
        simpa [setTask] using hj
      rw [← hu'] at hu ⊢
      simp at hu ⊢
      rw [← hu]
      exact hl
    · have hj' : s.tasks j = some u := by simpa [setTask, hji] using hj
      simpa [setTask] using hInv.finishedReg j u q hj' hu

theorem Inv_to_waitLock (s : LState) (i : Nat) (nm : String) (hInv : Inv s) :
    Inv (setTask s i { database_name := nm, pc := LPC.waitLock }) := by
  refine ⟨hInv.keysNodup, ?_, ?_⟩
  · intro j u hj hu
    by_cases hji : j = i
    · subst hji
      have hu' : { database_name := nm, pc := LPC.waitLock } = u := by
        simpa [setTask] using hj
      rw [← hu'] at hu
      simp at hu
    · have hj' : s.tasks j = some u := by simpa [setTask, hji] using hj
      simpa [setTask] using hInv.creatingLock j u hj' hu
  · intro j u q hj hu
    by_cases hji : j = i
    · subst hji
      have hu' : { database_name := nm, pc := LPC.waitLock } = u := by
        simpa [setTask] using hj
      rw [← hu'] at hu
      simp at hu
    · have hj' : s.tasks j = some u := by simpa [setTask, hji] using hj
      simpa [setTask] using hInv.finishedReg j u q hj' hu

theorem Inv_acquire (s : LState) (i : Nat) (nm : String) (hInv : Inv s)
    (hlock : s.lockHeld = none)
    (hl : DbArch.lookupPool s.pools nm = none) :
    Inv { pools := s.pools, lockHeld := some i, nextPool := s.nextPool,
          tasks := (setTask s i
            { database_name := nm, pc := LPC.creating }).tasks } := by
  refine ⟨hInv.keysNodup, ?_, ?_⟩
  · intro j u hj hu
    by_cases hji : j = i
    · subst hji
      have hu' : { database_name := nm, pc := LPC.creating } = u := by
        simpa [setTask] using hj
      rw [← hu']
      exact ⟨rfl, hl⟩
    · have hj' : s.tasks j = some u := by simpa [setTask, hji] using hj
      have := (hInv.creatingLock j u hj' hu).1
      rw [hlock] at this
      exact Option.noConfusion this
  · intro j u q hj hu
    by_cases hji : j = i
    · subst hji
      have hu' : { database_name := nm, pc := LPC.creating } = u := by
        simpa [setTask] using hj
      rw [← hu'] at hu
      simp at hu
    · have hj' : s.tasks j = some u := by simpa [setTask, hji] using hj
      exact hInv.finishedReg j u q hj' hu

theorem Inv_create_finish (s : LState) (i : Nat) (nm : String) (hInv : Inv s)
    (ht : s.tasks i = some { database_name := nm, pc := LPC.creating }) :
    Inv { pools := (nm, s.nextPool) :: s.pools, lockHeld := none,
          nextPool := s.nextPool + 1,
          tasks := (setTask s i
            { database_name := nm, pc := LPC.finished s.nextPool }).tasks }
    := by
  obtain ⟨hlock, hnone⟩ := hInv.creatingLock i _ ht rfl
  refine ⟨?_, ?_, ?_⟩
  · simp only [List.map_cons]
    exact List.nodup_cons.mpr
      ⟨DbArch.lookupPool_none_not_mem s.pools nm hnone, hInv.keysNodup⟩
  · intro j u hj hu
    by_cases hji : j = i
    · subst hji
      have hu' : { database_name := nm, pc := LPC.finished s.nextPool } = u
        := by simpa [setTask] using hj
      rw [← hu'] at hu
      simp at hu
    · have hj' : s.tasks j = some u := by simpa [setTask, hji] using hj
      have := (hInv.creatingLock j u hj' hu).1
      rw [hlock] at this
      exact absurd (Option.some.inj this) (Ne.symm hji)
  · intro j u q hj hu
    by_cases hji : j = i
    · subst hji
      have hu' : { database_name := nm, pc := LPC.finished s.nextPool } = u
        := by simpa [setTask] using hj
      rw [← hu'] at hu ⊢
      simp at hu ⊢
      rw [← hu]
      simp [DbArch.lookupPool]
    · have hj' : s.tasks j = some u := by simpa [setTask, hji] using hj
      have hold := hInv.finishedReg j u q hj' hu
      by_cases hnm : nm = u.database_name
      · rw [← hnm] at hold
        rw [hnone] at hold
        exact Option.noConfusion hold
      · simpa [DbArch.lookupPool, hnm] using hold

theorem Inv_step (s : LState) (i : Nat) (hInv : Inv s) : Inv (step s i) := by
  cases ht : s.tasks i with
  | none =>
    unfold step
    rw [ht]
    exact hInv
  | some t =>
    have hstep : step s i = stepTask s i t := by
      unfold step
      rw [ht]
    rw [hstep]
    obtain ⟨nm, pc⟩ := t
    cases pc with
    | start =>
      simp only [stepTask]
      cases hl : DbArch.lookupPool s.pools nm with
      | some p => exact Inv_finish_hit s i nm p hInv hl
      | none => exact Inv_to_waitLock s i nm hInv
    | waitLock =>
      simp only [stepTask]
      cases hlock : s.lockHeld with
      | some j => exact hInv
      | none =>
        cases hl : DbArch.lookupPool s.pools nm with
        | some p => exact Inv_finish_hit s i nm p hInv hl
        | none => exact Inv_acquire s i nm hInv hlock hl
    | creating =>
      simp only [stepTask]
      exact Inv_create_finish s i nm hInv ht
    | finished p =>
      simp only [stepTask]
      exact hInv

theorem Inv_run (s : LState) (sched : List Nat) (hInv : Inv s) :
    Inv (run s sched) := by
  induction sched generalizing s with
  | nil => exact hInv
  | cons i rest ih => exact ih _ (Inv_step s i hInv)

theorem Inv_initial (tasks : Nat → Option LTask)
    (h : ∀ i t, tasks i = some t → t.pc = LPC.start) :
    Inv { pools := [], lockHeld := none, nextPool := 0, tasks := tasks } := by
  refine ⟨by simp, ?_, ?_⟩
  · intro j u hj hu
    rw [h j u hj] at hu
    exact LPC.noConfusion hu
  · intro j u p hj hu
    rw [h j u hj] at hu
    exact LPC.noConfusion hu

/-- Single-flight property of the locked, double-checked
AuroraService.get_org_pool of the Database Architecture document, under the
interleaving semantics: from any state satisfying the registry invariant —
the initial all-tasks-at-start state in particular — every schedule keeps
the locator keys of the pools dict pairwise distinct (at most one PoolEntry
per locator, so concurrent acquires never double-construct) and hands every
finished caller exactly the pool the dict registers for its locator. This
is the behavior the specification describes; the unlocked variants diverge
from it. -/
theorem locked_get_org_pool_single_flight (s : LState) (sched : List Nat)
    (hInv : Inv s) :
    ((run s sched).pools.map Prod.fst).Nodup ∧
    (∀ i t p, (run s sched).tasks i = some t → t.pc = LPC.finished p →
      DbArch.lookupPool (run s sched).pools t.database_name = some p) :=
  ⟨(Inv_run s sched hInv).keysNodup, (Inv_run s sched hInv).finishedReg⟩

end DbArchLocked

/-- C1: the spec states that an org-level role of "owner" or "admin" always
allows every action on every project (organizational override). The
repository's check_permission in auth-rbac.md never consults the org role:
an org admin whose project-role lookup returns None is denied every action,
including DELETE_ITEMS. The repository's other implementation,
check_project_permission in item-lifecycle.md, follows its documented rule
"Org owners/admins automatically get project admin on all projects" and
allows every action for org role "admin" with no project role. The
auth-rbac implementation therefore contradicts the repository's own
documentation; the spec captures the intent. -/
theorem C1_org_override_divergence :
    AuthRbac.check_permission none AuthRbac.Permission.DELETE_ITEMS = false ∧
    (∀ p : ItemFlow.Perm,
      ItemFlow.check_project_permission (some "admin") none p = true) ∧
    (∀ p : ItemFlow.Perm,
      ItemFlow.check_project_permission (some "owner") none p = true) := by
  decide

/-- C4 counterexample: the spec states that a subject with no project-level
role record is treated as "viewer" for read actions, so a read is allowed;
in the code check_permission returns False for the read action VIEW_ITEMS
when the project-role lookup returns None, and check_project_permission
does the same for an org member. -/
theorem C4_counterexample :
    AuthRbac.check_permission none AuthRbac.Permission.VIEW_ITEMS = false ∧
    ItemFlow.check_project_permission (some "member") none ItemFlow.Perm.VIEW
      = false := by
  decide

/-- C4 amended: absence of any project-level role record (with org role
below admin) results in deny for every action, read actions included — the
code does not treat a missing role as "viewer" for reads. -/
theorem C4_no_role_denies_everything :
    (∀ p : AuthRbac.Permission, AuthRbac.check_permission none p = false) ∧
    (∀ p : ItemFlow.Perm,
      ItemFlow.check_project_permission (some "member") none p = false) ∧
    (∀ p : ItemFlow.Perm,
      ItemFlow.check_project_permission none none p = false) := by
  decide

/-- C7: whenever the permission check denies, require_permission
short-circuits: it returns AuthorizationError, the wrapped business
operation func is never invoked, and the tenant database — in particular
its audit_log — is returned unchanged. -/
theorem C7_deny_short_circuits (projectRole : Option String)
    (permission : AuthRbac.Permission) (func : Database → Database × Nat)
    (db : Database)
    (h : AuthRbac.check_permission projectRole permission = false) :
    AuthRbac.require_permission projectRole permission func db =
      (Except.error AppError.authorizationError, db) := by
  simp [AuthRbac.require_permission, h]

/-- C7 witness: a viewer attempting DELETE_ITEMS is denied; the business
operation (which would append an audit row and answer 7) never runs and the
database is unchanged. -/
theorem C7_deny_short_circuits_witness :
    AuthRbac.check_permission (some "viewer") AuthRbac.Permission.DELETE_ITEMS
        = false ∧
    AuthRbac.require_permission (some "viewer")
        AuthRbac.Permission.DELETE_ITEMS
        (fun db => ({ db with audit_log := db.audit_log ++ [sampleEntry] }, 7))
        emptyDb =
      (Except.error AppError.authorizationError, emptyDb) :=
  ⟨by decide,
   C7_deny_short_circuits (some "viewer") AuthRbac.Permission.DELETE_ITEMS
     (fun db => ({ db with audit_log := db.audit_log ++ [sampleEntry] }, 7))
     emptyDb (by decide)⟩

/-- C2: tenant isolation in the AuroraService registry. Acquisitions for
two tenants whose directory records carry distinct database_name locators
always yield distinct pool objects, and each pool sits in the registry
under exactly the database_name resolved from the central directory record
— get_org_connection passes get_org_pool nothing but the resolved record's
database_name, never caller-supplied input. -/
theorem C2_tenant_isolation (central : List Directory.OrgRecord)
    (s : DbArch.Registry) (a b : Nat) (ca cb : Bool) (pa pb : Nat)
    (ra rb : Directory.OrgRecord)
    (hInv : DbArch.RegInv s)
    (hra : Directory.findOrg central a = some ra)
    (hrb : Directory.findOrg central b = some rb)
    (hdb : ra.database_name ≠ rb.database_name)
    (h1 : (DbArch.get_org_connection true central s a ca).1 = Except.ok pa)
    (h2 : (DbArch.get_org_connection true central
        (DbArch.get_org_connection true central s a ca).2 b cb).1 =
      Except.ok pb) :
    pa ≠ pb ∧
    DbArch.lookupPool ((DbArch.get_org_connection true central
        (DbArch.get_org_connection true central s a ca).2 b cb).2).pools
      ra.database_name = some pa ∧
    DbArch.lookupPool ((DbArch.get_org_connection true central
        (DbArch.get_org_connection true central s a ca).2 b cb).2).pools
      rb.database_name = some pb := by
  rw [DbArch.get_org_connection_resolved central s a ca ra hra] at h1 h2 ⊢
  rw [DbArch.get_org_connection_resolved central _ b cb rb hrb] at h2 ⊢
  have la1 := DbArch.get_org_pool_ok_lookup s ra.database_name ca pa h1
  have lb2 := DbArch.get_org_pool_ok_lookup
    (DbArch.get_org_pool s ra.database_name ca).2 rb.database_name cb pb h2
  have la2 := DbArch.lookupPool_get_org_pool
    (DbArch.get_org_pool s ra.database_name ca).2 rb.database_name
    ra.database_name cb pa la1
  have hInv2 := DbArch.RegInv_get_org_pool
    (DbArch.get_org_pool s ra.database_name ca).2 rb.database_name cb
    (DbArch.RegInv_get_org_pool s ra.database_name ca hInv)
  refine ⟨?_, la2, lb2⟩
  intro hEq
  rw [hEq] at la2
  exact hdb (hInv2.inj ra.database_name rb.database_name pb la2 lb2)

/-- C2 witness: tenants acme and globex, resolved from the central
directory to distinct database names, acquire pools 0 and 1 — distinct pool
objects registered under their own locators. -/
theorem C2_tenant_isolation_witness :
    (0 : Nat) ≠ 1 ∧
    DbArch.lookupPool ((DbArch.get_org_connection true
        [⟨1, "braidmgr_org_acme", false⟩, ⟨2, "braidmgr_org_globex", false⟩]
        (DbArch.get_org_connection true
          [⟨1, "braidmgr_org_acme", false⟩, ⟨2, "braidmgr_org_globex", false⟩]
          DbArch.emptyRegistry 1 true).2 2 true).2).pools
      "braidmgr_org_acme" = some 0 ∧
    DbArch.lookupPool ((DbArch.get_org_connection true
        [⟨1, "braidmgr_org_acme", false⟩, ⟨2, "braidmgr_org_globex", false⟩]
        (DbArch.get_org_connection true
          [⟨1, "braidmgr_org_acme", false⟩, ⟨2, "braidmgr_org_globex", false⟩]
          DbArch.emptyRegistry 1 true).2 2 true).2).pools
      "braidmgr_org_globex" = some 1 :=
  C2_tenant_isolation
    [⟨1, "braidmgr_org_acme", false⟩, ⟨2, "braidmgr_org_globex", false⟩]
    DbArch.emptyRegistry 1 2 true true 0 1
    ⟨1, "braidmgr_org_acme", false⟩ ⟨2, "braidmgr_org_globex", false⟩
    DbArch.RegInv_empty (by decide) (by decide) (by decide) (by decide)
    (by decide)

/-- C5 counterexample: a tenant whose central-directory record is
soft-deleted (deleted_at set) still resolves successfully to its
database_name — the lookup in get_org_connection has no deleted_at filter,
so resolution does not fail with NotFoundError as the claim requires. -/
theorem C5_soft_deleted_resolves :
    DbArch.resolve_database_name true [⟨1, "braidmgr_org_acme", true⟩] 1 =
      Except.ok "braidmgr_org_acme" ∧
    DbArch.resolve_database_name true [⟨1, "braidmgr_org_acme", true⟩] 1 ≠
      Except.error AppError.notFound := by
  refine ⟨by decide, ?_⟩
  intro h
  simp [DbArch.resolve_database_name, Directory.findOrg] at h

/-- C5 amended: resolution fails with NotFoundError exactly when no record
exists for the tenant id; a record that exists resolves to its
database_name even when it is soft-deleted (the query has no deleted_at
filter); central-store unavailability fails with ServiceUnavailableError,
an error distinct from NotFoundError, so a caller can still distinguish a
nonexistent tenant from an outage. -/
theorem C5_resolution_semantics (central : List Directory.OrgRecord)
    (org_id : Nat) :
    DbArch.resolve_database_name false central org_id =
      Except.error AppError.serviceUnavailable ∧
    AppError.serviceUnavailable ≠ AppError.notFound ∧
    (Directory.findOrg central org_id = none →
      DbArch.resolve_database_name true central org_id =
        Except.error AppError.notFound) ∧
    (∀ org, Directory.findOrg central org_id = some org →
      DbArch.resolve_database_name true central org_id =
        Except.ok org.database_name) := by
  refine ⟨rfl, by decide, ?_, ?_⟩
  · intro h
    simp [DbArch.resolve_database_name, h]
  · intro org h
    simp [DbArch.resolve_database_name, h]

/-- C5 witness: with one soft-deleted acme record, an outage yields
ServiceUnavailableError, an unknown id yields NotFoundError, and the
soft-deleted record resolves. -/
theorem C5_resolution_semantics_witness :
    DbArch.resolve_database_name false [⟨1, "braidmgr_org_acme", true⟩] 1 =
      Except.error AppError.serviceUnavailable ∧
    DbArch.resolve_database_name true [⟨1, "braidmgr_org_acme", true⟩] 2 =
      Except.error AppError.notFound ∧
    DbArch.resolve_database_name true [⟨1, "braidmgr_org_acme", true⟩] 1 =
      Except.ok "braidmgr_org_acme" :=
  ⟨(C5_resolution_semantics [⟨1, "braidmgr_org_acme", true⟩] 1).1,
   (C5_resolution_semantics [⟨1, "braidmgr_org_acme", true⟩] 2).2.2.1
     (by decide),
   (C5_resolution_semantics [⟨1, "braidmgr_org_acme", true⟩] 1).2.2.2
     ⟨1, "braidmgr_org_acme", true⟩ (by decide)⟩

/-- C8: when pool construction fails during an acquire for a locator not in
the registry, the call fails with the mapped ServiceUnavailableError (the
spec's PoolUnavailable), the registry is left exactly as it was — no
poisoned entry is inserted — and a subsequent acquire for the same locator
retries construction and, when the store is back, succeeds and registers
the pool. -/
theorem C8_construction_failure_no_poison (s : DbArch.Registry) (n : String)
    (h : DbArch.lookupPool s.pools n = none) :
    (DbArch.get_org_pool s n false).1 =
      Except.error AppError.serviceUnavailable ∧
    (DbArch.get_org_pool s n false).2 = s ∧
    (DbArch.get_org_pool (DbArch.get_org_pool s n false).2 n true).1 =
      Except.ok s.nextPool ∧
    DbArch.lookupPool ((DbArch.get_org_pool
        (DbArch.get_org_pool s n false).2 n true).2).pools n =
      some s.nextPool := by
  simp [DbArch.get_org_pool, h, DbArch.lookupPool]

/-- C8 witness: on the empty registry, a failed construction for acme
errors and leaves the registry empty; the retry constructs pool 0 and
registers it. -/
theorem C8_construction_failure_no_poison_witness :
    (DbArch.get_org_pool DbArch.emptyRegistry "braidmgr_org_acme" false).1 =
      Except.error AppError.serviceUnavailable ∧
    (DbArch.get_org_pool DbArch.emptyRegistry "braidmgr_org_acme" false).2 =
      DbArch.emptyRegistry ∧
    (DbArch.get_org_pool (DbArch.get_org_pool DbArch.emptyRegistry
        "braidmgr_org_acme" false).2 "braidmgr_org_acme" true).1 =
      Except.ok 0 ∧
    DbArch.lookupPool ((DbArch.get_org_pool (DbArch.get_org_pool
        DbArch.emptyRegistry "braidmgr_org_acme" false).2 "braidmgr_org_acme"
        true).2).pools "braidmgr_org_acme" = some 0 :=
  C8_construction_failure_no_poison DbArch.emptyRegistry "braidmgr_org_acme"
    (by decide)

/-- C9 counterexample: create the pool for locator braidmgr_org_acme (pool
0 in the fresh registry). There is no sequence of registry operations after
which that entry is gone or replaced: the code contains no background
eviction sweep and nothing ever removes a PoolEntry, so the claimed
close-and-remove of an idle entry by the next sweep never happens. -/
theorem C9_counterexample :
    ¬ ∃ ops : List (String × Bool),
      DbArch.lookupPool (DbArch.runPool (DbArch.get_org_pool
          DbArch.emptyRegistry "braidmgr_org_acme" true).2 ops).pools
        "braidmgr_org_acme" ≠ some 0 := by
  rintro ⟨ops, hops⟩
  exact hops (DbArch.lookupPool_runPool _ ops "braidmgr_org_acme" 0
    (by decide))

/-- C9 amended: there is no idle eviction. Once a PoolEntry exists for a
locator it survives every further sequence of registry operations
unchanged, and every later acquire for that locator returns the identical
cached pool and leaves the registry untouched — pools are never closed,
removed or reconstructed; only idle connections inside a pool are recycled
by asyncpg's max_inactive_connection_lifetime=300 setting, which does not
remove the registry entry. -/
theorem C9_no_eviction (s : DbArch.Registry) (n : String) (p : Nat)
    (ops : List (String × Bool)) (b : Bool)
    (h : DbArch.lookupPool s.pools n = some p) :
    DbArch.lookupPool (DbArch.runPool s ops).pools n = some p ∧
    DbArch.get_org_pool (DbArch.runPool s ops) n b =
      (Except.ok p, DbArch.runPool s ops) := by
  have hrun := DbArch.lookupPool_runPool s ops n p h
  exact ⟨hrun, DbArch.get_org_pool_hit (DbArch.runPool s ops) n b p hrun⟩

/-- C9 witness: after creating acme's pool 0, a trace of further acquires
(including failing ones and other locators) leaves the entry in place, and
the next acquire for acme returns pool 0 with the registry unchanged. -/
theorem C9_no_eviction_witness :
    DbArch.lookupPool (DbArch.runPool (DbArch.get_org_pool
        DbArch.emptyRegistry "braidmgr_org_acme" true).2
        [("braidmgr_org_globex", true), ("braidmgr_org_acme", false)]).pools
      "braidmgr_org_acme" = some 0 ∧
    DbArch.get_org_pool (DbArch.runPool (DbArch.get_org_pool
        DbArch.emptyRegistry "braidmgr_org_acme" true).2
        [("braidmgr_org_globex", true), ("braidmgr_org_acme", false)])
        "braidmgr_org_acme" true =
      (Except.ok 0, DbArch.runPool (DbArch.get_org_pool
        DbArch.emptyRegistry "braidmgr_org_acme" true).2
        [("braidmgr_org_globex", true), ("braidmgr_org_acme", false)]) :=
  C9_no_eviction (DbArch.get_org_pool DbArch.emptyRegistry
      "braidmgr_org_acme" true).2 "braidmgr_org_acme" 0
    [("braidmgr_org_globex", true), ("braidmgr_org_acme", false)] true
    (by decide)

/-- C10: once the Multi-Tenancy Flows cache holds a pool for an org, every
later get_org_connection for that org returns exactly the cached pool and
leaves the cache untouched, whatever the central directory then contains
and whether it is reachable at all — the cache is checked before the
directory — and no sequence of acquisitions ever removes, expires or
replaces the entry. Soft-deleting the tenant or rotating its database_name
after the first acquisition therefore never affects the routing of later
requests for that tenant. -/
theorem C10_cached_pool_is_permanent (s : MtFlow.FlowCache) (o p : Nat)
    (h : MtFlow.lookupOrg s.connection_pools o = some p) :
    (∀ (available : Bool) (central : List Directory.OrgRecord),
      MtFlow.get_org_connection available central s o = (Except.ok p, s)) ∧
    (∀ ops : List (Bool × List Directory.OrgRecord × Nat),
      MtFlow.lookupOrg (MtFlow.runFlow s ops).connection_pools o =
        some p) :=
  ⟨fun a central => MtFlow.get_org_connection_hit a central s o p h,
   fun ops => MtFlow.lookupOrg_runFlow s ops o p h⟩

/-- C10 witness: org 1 first acquires pool 0 while its record is active
with database braidmgr_org_acme; after the record is rotated and
soft-deleted — and even with the directory empty or unreachable — later
acquisitions still return pool 0 and the cache entry survives further
traffic. -/
theorem C10_cached_pool_is_permanent_witness :
    MtFlow.get_org_connection true [⟨1, "braidmgr_org_rotated", true⟩]
        (MtFlow.get_org_connection true [⟨1, "braidmgr_org_acme", false⟩]
          MtFlow.emptyCache 1).2 1 =
      (Except.ok 0,
        (MtFlow.get_org_connection true [⟨1, "braidmgr_org_acme", false⟩]
          MtFlow.emptyCache 1).2) ∧
    MtFlow.lookupOrg (MtFlow.runFlow
        (MtFlow.get_org_connection true [⟨1, "braidmgr_org_acme", false⟩]
          MtFlow.emptyCache 1).2
        [(false, [], 1), (true, [⟨1, "braidmgr_org_rotated", true⟩], 2)]
      ).connection_pools 1 = some 0 :=
  ⟨(C10_cached_pool_is_permanent
      (MtFlow.get_org_connection true [⟨1, "braidmgr_org_acme", false⟩]
        MtFlow.emptyCache 1).2 1 0 (by decide)).1 true
      [⟨1, "braidmgr_org_rotated", true⟩],
   (C10_cached_pool_is_permanent
      (MtFlow.get_org_connection true [⟨1, "braidmgr_org_acme", false⟩]
        MtFlow.emptyCache 1).2 1 0 (by decide)).2
      [(false, [], 1), (true, [⟨1, "braidmgr_org_rotated", true⟩], 2)]⟩

/-- C3: the double-creation race of the unlocked get_org_connection in the
Multi-Tenancy Flows document (the unlocked AuroraService.get_org_pool of
the Service Architecture document has the same check-await-insert shape).
Two concurrent calls for org 1 — locator braidmgr_org_acme, not yet pooled
— both pass the cache check before either finishes constructing, so two
pools are constructed for the one locator and the two callers end up
holding two different pool objects. This contradicts the locked,
double-checked AuroraService.get_org_pool of the Database Architecture
document, which is the documented intent the spec describes. -/
theorem C3_duplicate_construction_race :
    (MtFlowConc.run MtFlowConc.raceCentral MtFlowConc.raceStart
        MtFlowConc.raceSchedule).nextPool = 2 ∧
    MtFlowConc.countOrg (MtFlowConc.run MtFlowConc.raceCentral
        MtFlowConc.raceStart MtFlowConc.raceSchedule).connection_pools 1 =
      2 ∧
    (MtFlowConc.run MtFlowConc.raceCentral MtFlowConc.raceStart
        MtFlowConc.raceSchedule).tasks =
      [⟨1, MtFlowConc.FPC.finished 0⟩, ⟨1, MtFlowConc.FPC.finished 1⟩] := by
  decide

/-- C6: log_change appends exactly one row to the audit_log of the staged
state of the connection it is given — it touches nothing else and, having
type Conn to Conn, can neither commit nor open a transaction of its own.
Consequently a business operation that stages arbitrary writes f and its
audit entry on one connection inside AuroraService.transaction and then
raises rolls the whole transaction back: the error propagates and the
committed database, its audit_log included, is exactly the one from before
the operation — zero AuditEntry rows persist. When the same mutation
commits, the business writes and the audit row commit together. -/
theorem C6_audit_commits_with_mutation (db : Database)
    (f : SvcArch.Conn → SvcArch.Conn) (e : AuditEntry) (err : AppError) :
    (∀ c : SvcArch.Conn,
      (SvcArch.log_change c e).db.audit_log = c.db.audit_log ++ [e] ∧
      (SvcArch.log_change c e).db.items = c.db.items) ∧
    SvcArch.transaction db (SvcArch.failing_mutation f e err) =
      (Except.error err, db) ∧
    (SvcArch.transaction db
        (SvcArch.failing_mutation f e err)).2.audit_log = db.audit_log ∧
    (SvcArch.transaction db
        (SvcArch.committing_mutation f e)).2.audit_log =
      (f ⟨db⟩).db.audit_log ++ [e] :=
  ⟨fun _ => ⟨rfl, rfl⟩, rfl, rfl, rfl⟩

end BraidMgr
